import Mathlib

/-!
Verification of the coordinate-mapping, overlay-store, export and
thumbnail-cache logic of `src/pdf_viewer.py` (class `ModernPDFViewer`).

Modelling conventions:
* Python floats are modelled as exact rationals (`ℚ`).
* The mutable viewer object is modelled as the record `ViewerState`; each
  Python method that mutates `self` becomes a function `ViewerState → ...`.
* Code that can raise an uncaught Python exception returns
  `Except String _`, where the string names the exception.
* The raster pipeline of `display_page` (PyMuPDF `get_pixmap` plus PIL
  `thumbnail`) is external-library code; the pixel size of the photo it
  produces for a given page is abstracted as the state field `render`,
  which is fixed while no zoom or canvas change happens (true during
  export, the only place the model invokes `display_page`).
-/

/-- Decidable equality for `Except`, used to evaluate the model on
concrete inputs. -/
instance exceptDecEq {ε α : Type} [DecidableEq ε] [DecidableEq α] :
    DecidableEq (Except ε α) := fun x y =>
  match x, y with
  | .ok a, .ok b =>
    if h : a = b then isTrue (by rw [h])
    else isFalse (fun hc => h (Except.ok.inj hc))
  | .error a, .error b =>
    if h : a = b then isTrue (by rw [h])
    else isFalse (fun hc => h (Except.error.inj hc))
  | .ok _, .error _ => isFalse (fun hc => Except.noConfusion hc)
  | .error _, .ok _ => isFalse (fun hc => Except.noConfusion hc)

/-- Intrinsic size of a PDF page in points (`page.rect.width/height`). -/
structure PageGeom where
  pdfWidth : ℚ
  pdfHeight : ℚ
deriving DecidableEq

/-- A canvas rectangle `(x0, y0, x1, y1)` in display-pixel coordinates,
as stored in `_redactions_by_page` and as held by a canvas item. -/
structure Rect where
  x0 : ℚ
  y0 : ℚ
  x1 : ℚ
  y1 : ℚ
deriving DecidableEq

/-- A stored text overlay, the dict appended by `save_text`
(`x`, `y`, `text`, `font`, `size`, `color`).  The `id` entry of the Python
dict is an opaque CPython object identity used only as a canvas tag; no
claim observes it, so it is not part of the model. -/
structure TextData where
  x : ℚ
  y : ℚ
  text : String
  font : String
  size : ℤ
  color : String
deriving DecidableEq

/-- The `mode` entry of `_redact_overlay`: `"draw"` or `"move"`. -/
inductive RedactMode where
  | draw
  | move
deriving DecidableEq

/-- The `_redact_overlay` dict created by `action_redact` and mutated by
the redaction handlers.  `currentItem` holds the canvas coordinates of the
rectangle item referenced by `current_item` (`none` models Python `None`);
`offset` models the `"offset"` key which is only present after a
move-mode `_redact_start`. -/
structure RedactOverlay where
  startX : Option ℚ
  startY : Option ℚ
  currentItem : Option Rect
  mode : RedactMode
  offset : Option (ℚ × ℚ)
deriving DecidableEq

/-- The fields of `ModernPDFViewer` the verified routines read or write.
`redactionsByPage` and `textsByPage` model the Python dicts as total
functions defaulting to `[]` (a missing key and an empty list are
indistinguishable to every routine modelled here).
`hasAttrPagePhoto` models `hasattr(self, '_page_photo')` and `pagePhoto`
the value of the attribute (`none` for Python `None`).
`render p` is the (width, height) of the raster photo `display_page`
produces for page `p` under the current view configuration. -/
structure ViewerState where
  pages : List PageGeom
  currentPage : ℕ
  hasAttrPagePhoto : Bool
  pagePhoto : Option (ℚ × ℚ)
  fitToWindow : Bool
  canvasW : ℚ
  canvasH : ℚ
  render : ℕ → ℚ × ℚ
  redactionsByPage : ℕ → List Rect
  textsByPage : ℕ → List TextData
  redactOverlay : Option RedactOverlay

/-- The `_page_photo`-related fields established by `__init__`
(lines 101-102): the attribute exists and holds `None`, so
`hasattr(self, '_page_photo')` is already true before any raster exists. -/
def initPhotoFields (s : ViewerState) : ViewerState :=
  { s with hasAttrPagePhoto := true, pagePhoto := none }

/-- `display_page` (lines 1140-1191) restricted to its effect on the
model state: if the canvas is still degenerate (`cw < 50 or ch < 50`) it
only reschedules itself and changes nothing; otherwise it renders the
current page and stores the resulting photo in `_page_photo`.
Its canvas drawing, scrollbar handling and the store-reading
`_restore_redactions` / `_restore_texts` calls do not touch any modelled
field. -/
def displayPage (s : ViewerState) : ViewerState :=
  if s.canvasW < 50 ∨ s.canvasH < 50 then s
  else { s with pagePhoto := some (s.render s.currentPage), hasAttrPagePhoto := true }

/-- `_canvas_to_pdf_point` (lines 364-412).  Canvas pixel to PDF point:
fetch the page (an out-of-range index raises `IndexError`), fall back to
`(canvas_x, pdf_height - canvas_y)` when the `_page_photo` attribute is
absent, read the displayed photo size (raises `AttributeError` when the
attribute holds `None`), subtract the centering offset and clamp in
fit-to-window mode, then scale per axis and flip the Y axis. -/
def canvasToPdfPoint (s : ViewerState) (pageIdx : ℕ) (canvasX canvasY : ℚ) :
    Except String (ℚ × ℚ) :=
  match s.pages.get? pageIdx with
  | none => .error "IndexError: page index out of range"
  | some page =>
    let pdfWidth := page.pdfWidth
    let pdfHeight := page.pdfHeight
    if s.hasAttrPagePhoto = false then
      .ok (canvasX, pdfHeight - canvasY)
    else
      match s.pagePhoto with
      | none => .error "AttributeError: NoneType object has no attribute width"
      | some (displayWidth, displayHeight) =>
        let (relX, relY) :=
          if s.fitToWindow then
            let imgXOffset := (s.canvasW - displayWidth) / 2
            let imgYOffset := (s.canvasH - displayHeight) / 2
            let rX := canvasX - imgXOffset
            let rY := canvasY - imgYOffset
            if rX < 0 ∨ rX > displayWidth ∨ rY < 0 ∨ rY > displayHeight then
              (max 0 (min displayWidth rX), max 0 (min displayHeight rY))
            else
              (rX, rY)
          else
            (canvasX, canvasY)
        let scaleX := pdfWidth / displayWidth
        let scaleY := pdfHeight / displayHeight
        let pdfX := relX * scaleX
        let pdfY := relY * scaleY
        .ok (pdfX, pdfHeight - pdfY)

/-- `_canvas_rect_to_pdf_rect` (lines 414-424): map both corners and
re-normalize min/max per axis. -/
def canvasRectToPdfRect (s : ViewerState) (pageIdx : ℕ) (x0 y0 x1 y1 : ℚ) :
    Except String (ℚ × ℚ × ℚ × ℚ) :=
  match canvasToPdfPoint s pageIdx x0 y0 with
  | .error e => .error e
  | .ok pdfP0 =>
    match canvasToPdfPoint s pageIdx x1 y1 with
    | .error e => .error e
    | .ok pdfP1 =>
      .ok (min pdfP0.1 pdfP1.1, min pdfP0.2 pdfP1.2,
           max pdfP0.1 pdfP1.1, max pdfP0.2 pdfP1.2)

example :
    canvasToPdfPoint
      { pages := [⟨600, 800⟩], currentPage := 0, hasAttrPagePhoto := true,
        pagePhoto := some (300, 400), fitToWindow := false,
        canvasW := 400, canvasH := 500, render := fun _ => (300, 400),
        redactionsByPage := fun _ => [], textsByPage := fun _ => [],
        redactOverlay := none } 0 100 100 = .ok (200, 600) := by
  with_unfolding_all rfl

/-- `_redact_start` (lines 759-777).  The result of the canvas
`find_overlapping` hit test is passed in as `hitItem`: the coordinates of
the clicked `redact_overlay` item, or `none` when the click hit no
existing redaction.  A hit switches to move mode and records the grab
offset; otherwise a fresh degenerate rectangle item is created at the
click point and draw mode begins. -/
def redactStart (s : ViewerState) (eventX eventY : ℚ) (hitItem : Option Rect) :
    ViewerState :=
  match s.redactOverlay with
  | none => s
  | some ov =>
    match hitItem with
    | some coords =>
      let ov' := { ov with mode := RedactMode.move, currentItem := some coords,
                           offset := some (eventX - coords.x0, eventY - coords.y0) }
      { s with redactOverlay := some ov' }
    | none =>
      let ov' := { ov with mode := RedactMode.draw,
                           startX := some eventX, startY := some eventY,
                           currentItem := some ⟨eventX, eventY, eventX, eventY⟩ }
      { s with redactOverlay := some ov' }

/-- `_redact_drag` (lines 795-810).  Draw mode re-normalizes the item
rectangle between the start corner and the pointer; move mode translates
the item, preserving its width and height.  Both branches write only the
canvas item, never `_redactions_by_page`.  A draw drag with a `None`
start corner would raise `TypeError` in `min`, and a move drag without a
recorded `"offset"` key would raise `KeyError`. -/
def redactDrag (s : ViewerState) (eventX eventY : ℚ) : Except String ViewerState :=
  match s.redactOverlay with
  | none => .ok s
  | some ov =>
    match ov.currentItem with
    | none => .ok s
    | some coords =>
      if ov.mode = RedactMode.draw then
        match ov.startX, ov.startY with
        | some sx, some sy =>
          let item := some (⟨min sx eventX, min sy eventY,
                             max sx eventX, max sy eventY⟩ : Rect)
          .ok { s with redactOverlay := some { ov with currentItem := item } }
        | _, _ => .error "TypeError: comparison of NoneType and number"
      else
        match ov.offset with
        | none => .error "KeyError: offset"
        | some (ox, oy) =>
          let w := coords.x1 - coords.x0
          let h := coords.y1 - coords.y0
          let newX := eventX - ox
          let newY := eventY - oy
          let item := some (⟨newX, newY, newX + w, newY + h⟩ : Rect)
          .ok { s with redactOverlay := some { ov with currentItem := item } }

/-- `_redact_finish` (lines 812-828).  Outside draw mode the handler
returns immediately, without touching the store.  In draw mode, a
rectangle whose width or height is below 5 pixels is deleted from the
canvas and never persisted; otherwise its coordinates are appended to
`_redactions_by_page[current_page]`.  Finally the gesture state is
reset. -/
def redactFinish (s : ViewerState) : ViewerState :=
  match s.redactOverlay with
  | none => s
  | some ov =>
    if ov.mode ≠ RedactMode.draw then s
    else
      match ov.currentItem with
      | none =>
        let ov' := { ov with startX := none, startY := none, mode := RedactMode.draw }
        { s with redactOverlay := some ov' }
      | some coords =>
        if |coords.x1 - coords.x0| < 5 ∨ |coords.y1 - coords.y0| < 5 then
          let ov' := { ov with currentItem := none, startX := none,
                               startY := none, mode := RedactMode.draw }
          { s with redactOverlay := some ov' }
        else
          let ov' := { ov with startX := none, startY := none, mode := RedactMode.draw }
          { s with
            redactionsByPage := fun p =>
              if p = s.currentPage then s.redactionsByPage p ++ [coords]
              else s.redactionsByPage p,
            redactOverlay := some ov' }

/-- The dimension argument of `_adjust_redact`: `"h"` or `"w"`. -/
inductive AdjustDim where
  | h
  | w
deriving DecidableEq

/-- `_adjust_redact` (lines 829-839): a keyboard nudge grows or shrinks
the bottom or right edge of the current canvas item by `delta`, keeping
at least 5 pixels of extent.  Only the canvas item is written; the
Overlay Store is not consulted. -/
def adjustRedact (s : ViewerState) (dim : AdjustDim) (delta : ℚ) : ViewerState :=
  match s.redactOverlay with
  | none => s
  | some ov =>
    match ov.currentItem with
    | none => s
    | some coords =>
      let coords' :=
        match dim with
        | AdjustDim.h => { coords with y1 := max (coords.y0 + 5) (coords.y1 + delta) }
        | AdjustDim.w => { coords with x1 := max (coords.x0 + 5) (coords.x1 + delta) }
      { s with redactOverlay := some { ov with currentItem := some coords' } }

/-- Python whitespace as recognized by `str.strip()` with no argument,
restricted to the ASCII range (the stored text originates from a Tk
entry widget). -/
def isPySpace (c : Char) : Bool :=
  c == ' ' || c == '\t' || c == '\n' || c == '\x0d' || c == '\x0b' || c == '\x0c'

/-- `str.strip()`: remove leading and trailing whitespace. -/
def pyStrip (l : List Char) : List Char :=
  ((l.dropWhile isPySpace).reverse.dropWhile isPySpace).reverse

/-- `save_text` inside `_text_click` (lines 591-609): read the entry
text; when it is non-empty after stripping, append the annotation dict to
`_texts_by_page[current_page]`; otherwise only the entry widget is
destroyed and nothing is persisted. -/
def saveText (s : ViewerState) (eventX eventY : ℚ) (text : String)
    (tkFamily : String) (fontSize : ℤ) (color : String) : ViewerState :=
  if pyStrip text.toList ≠ [] then
    { s with textsByPage := fun p =>
        if p = s.currentPage then
          s.textsByPage p ++ [⟨eventX, eventY, text, tkFamily, fontSize, color⟩]
        else s.textsByPage p }
  else s

/-- `self.max_thumb_cache = 200` set in `__init__` (line 104). -/
def maxThumbCache : ℕ := 200

/-- The eviction loop of `_ensure_thumb` (lines 1132-1133):
`while len(cache) > max_thumb_cache: cache.popitem(last=False)`.
The `OrderedDict` is modelled as a list of (page index, photo) pairs,
least recently used first; `popitem(last=False)` removes the head. -/
def evictThumbs {V : Type} (cache : List (ℕ × V)) : List (ℕ × V) :=
  if maxThumbCache < cache.length then evictThumbs cache.tail else cache
termination_by cache.length
decreasing_by
  simp only [List.length_tail]
  omega

/-- `_ensure_thumb` (lines 1118-1133) restricted to the cache: a hit
reads the cached photo and calls `move_to_end`, promoting the entry to
the most-recently-used tail; a miss renders the page (the external
raster pipeline is abstracted as `render`), appends the entry, and runs
the eviction loop.  The button/photo bookkeeping after the
`if` (lines 1135-1137) does not touch the cache. -/
def ensureThumb {V : Type} (cache : List (ℕ × V)) (pageIndex : ℕ)
    (render : ℕ → V) : List (ℕ × V) :=
  match cache.lookup pageIndex with
  | some photo => cache.eraseP (fun e => e.1 == pageIndex) ++ [(pageIndex, photo)]
  | none => evictThumbs (cache ++ [(pageIndex, render pageIndex)])

example : ensureThumb [(0, 10), (1, 11), (2, 12)] 1 (fun i => i) =
    [(0, 10), (2, 12), (1, 11)] := by decide

/-- Python `int(hexpair, 16)` on a two-character slice: the numeric value
of a hex digit. -/
def hexVal (c : Char) : Option ℕ :=
  if c.isDigit then some (c.toNat - 48)
  else if 97 ≤ c.toNat ∧ c.toNat ≤ 102 then some (c.toNat - 87)
  else if 65 ≤ c.toNat ∧ c.toNat ≤ 70 then some (c.toNat - 55)
  else none

/-- Python `int(s, 16)`: parses a non-empty all-hex-digit string, raising
`ValueError` otherwise. -/
def parseHex (cs : List Char) : Except String ℕ :=
  match cs with
  | [] => .error "ValueError: invalid literal for int with base 16"
  | _ =>
    match cs.foldl (fun acc c => acc.bind fun a => (hexVal c).map fun v => a * 16 + v)
        (some 0) with
    | some n => .ok n
    | none => .error "ValueError: invalid literal for int with base 16"

/-- `_hex_to_rgb01` (lines 862-870): strip, remove leading `#`, expand a
3-digit shorthand by doubling each digit, then parse the three hex pairs
into an RGB triplet scaled to the 0-1 range. -/
def hexToRgb01 (hexstr : String) : Except String (ℚ × ℚ × ℚ) :=
  let cs0 := (pyStrip hexstr.toList).dropWhile (· == '#')
  let cs := if cs0.length = 3 then cs0.flatMap (fun ch => [ch, ch]) else cs0
  match parseHex (cs.take 2) with
  | .error e => .error e
  | .ok r =>
    match parseHex ((cs.drop 2).take 2) with
    | .error e => .error e
    | .ok g =>
      match parseHex ((cs.drop 4).take 2) with
      | .error e => .error e
      | .ok b => .ok ((r : ℚ) / 255, (g : ℚ) / 255, (b : ℚ) / 255)

example : hexToRgb01 "#FF0000" = .ok (1, 0, 0) := by with_unfolding_all rfl
example : hexToRgb01 "#abc" = .ok (170/255, 187/255, 204/255) := by
  with_unfolding_all rfl

/-- Boolean infix (substring) test on character lists, Python `in` on
strings. -/
def listIsSub (needle hay : List Char) : Bool :=
  match hay with
  | [] => needle.isEmpty
  | _ :: t => needle.isPrefixOf hay || listIsSub needle t

example : listIsSub "time".toList "times new roman".toList = true := rfl
example : listIsSub "mono".toList "helvetica".toList = false := rfl

/-- Python `str.lower()` restricted to ASCII, as a character list. -/
def pyLower (str : String) : List Char :=
  str.toList.map Char.toLower

/-- `self._font_map` set in `__init__` (lines 138-142): UI label, Tk font
family, PyMuPDF Base-14 font name. -/
def fontMap : List (String × String × String) :=
  [("Sans (Helvetica)", "Helvetica", "helv"),
   ("Serif (Times)", "Times New Roman", "times"),
   ("Mono (Courier)", "Courier New", "cour")]

/-- `_fitz_font_from_tk` (lines 872-882): first Tk family of the font
map whose lowercased name occurs in the given family wins; otherwise
substring heuristics pick times or cour; the default is helv. -/
def fitzFontFromTk (tkFamily : String) : String :=
  match fontMap.find? (fun e => listIsSub (pyLower e.2.1) (pyLower tkFamily)) with
  | some e => e.2.2
  | none =>
    let name := pyLower tkFamily
    if listIsSub "time".toList name || listIsSub "georgia".toList name ||
        listIsSub "serif".toList name then "times"
    else if listIsSub "cour".toList name || listIsSub "mono".toList name then "cour"
    else "helv"

example : fitzFontFromTk "Times New Roman" = "times" := rfl
example : fitzFontFromTk "Comic Sans MS" = "helv" := rfl
example : fitzFontFromTk "DejaVu Sans Mono" = "cour" := rfl

/-- One drawing operation performed on the output document by
`_export_with_overlays`: a filled black rectangle (`page.draw_rect`) or a
text insertion (`page.insert_text`). -/
inductive ExportOp where
  | drawRect (page : ℕ) (r : Rect)
  | insertText (page : ℕ) (x y : ℚ) (text : String) (size : ℤ)
      (fontname : String) (rgb : ℚ × ℚ × ℚ)
deriving DecidableEq

/-- The redaction loop of `_export_with_overlays` (lines 893-899): each
stored canvas rectangle of the page is mapped through
`_canvas_rect_to_pdf_rect` with the viewer state as it is at that moment
- no page-specific re-rendering happens on this path - and drawn as a
filled black rectangle.  A mapping error propagates out. -/
def mapRedactions (st : ViewerState) (pageIdx : ℕ) :
    List Rect → List ExportOp → Except String (List ExportOp)
  | [], ops => .ok ops
  | r :: rest, ops =>
    match canvasRectToPdfRect st pageIdx r.x0 r.y0 r.x1 r.y1 with
    | .error e => .error e
    | .ok (a, b, c, d) =>
      mapRedactions st pageIdx rest (ops ++ [ExportOp.drawRect pageIdx ⟨a, b, c, d⟩])

/-- The text loop of `_export_with_overlays` (lines 901-954).  For each
annotation: remember the current page; if the owning page is not current,
switch to it and call `display_page` so that the page photo used by the
mapping belongs to the owning page; map the anchor point; lower the
baseline by `fontsize * 0.8`; convert the color; map the font; record the
insertion (the PyMuPDF-level retry of lines 930-949 is external-library
error handling and is modelled as a successful insertion); finally
restore the original page and re-render it.  Exceptions raised by the
mapping or the color conversion propagate, leaving the viewer on the
transiently shown page. -/
def exportTexts (pageIdx : ℕ) :
    List TextData → ViewerState → List ExportOp →
    ViewerState × Except String (List ExportOp)
  | [], st, ops => (st, .ok ops)
  | td :: rest, st, ops =>
    let oldPage := st.currentPage
    let st1 := if pageIdx ≠ st.currentPage
      then displayPage { st with currentPage := pageIdx } else st
    match canvasToPdfPoint st1 pageIdx td.x td.y with
    | .error e => (st1, .error e)
    | .ok (pdfX, pdfY) =>
      let pdfYBaseline := pdfY + (td.size : ℚ) * (4 / 5)
      match hexToRgb01 td.color with
      | .error e => (st1, .error e)
      | .ok color =>
        let fontname := fitzFontFromTk td.font
        let ops := ops ++
          [ExportOp.insertText pageIdx pdfX pdfYBaseline td.text td.size fontname color]
        let st2 := if oldPage ≠ pageIdx
          then displayPage { st1 with currentPage := oldPage } else st1
        exportTexts pageIdx rest st2 ops

/-- The page loop of `_export_with_overlays` (lines 890-954), iterating
over `range(len(out))`: first the redaction rectangles of the page, then
its text annotations. -/
def exportPages :
    List ℕ → ViewerState → List ExportOp →
    ViewerState × Except String (List ExportOp)
  | [], st, ops => (st, .ok ops)
  | pageIdx :: rest, st, ops =>
    match mapRedactions st pageIdx (st.redactionsByPage pageIdx) ops with
    | .error e => (st, .error e)
    | .ok ops1 =>
      match exportTexts pageIdx (st.textsByPage pageIdx) st ops1 with
      | (st1, .error e) => (st1, .error e)
      | (st1, .ok ops2) => exportPages rest st1 ops2

/-- `_export_with_overlays` (lines 884-957): copy the source document,
composite every page, then `out.save(target_path)`.  The flag `saveOk`
abstracts whether the final write succeeds; an I/O failure there raises,
as does any uncaught mapping exception.  The returned state is the state
of `self` when the call returns or raises; the operation list is the
sequence of draw operations burnt into the output document. -/
def exportWithOverlays (s : ViewerState) (saveOk : Bool) :
    ViewerState × Except String (List ExportOp) :=
  match exportPages (List.range s.pages.length) s [] with
  | (st, .error e) => (st, .error e)
  | (st, .ok ops) => (st, if saveOk then .ok ops else .error "OSError: save failed")

/-- C5: for every page index and corner coordinates,
`_canvas_rect_to_pdf_rect` is invariant under swapping the two input
corners, and a successful result `(a, b, c, d)` is normalized per axis:
`a ≤ c` and `b ≤ d`. -/
theorem C5_rect_corner_order (s : ViewerState) (pageIdx : ℕ) (x0 y0 x1 y1 a b c d : ℚ)
    (h : canvasRectToPdfRect s pageIdx x0 y0 x1 y1 = .ok (a, b, c, d)) :
    canvasRectToPdfRect s pageIdx x1 y1 x0 y0 = .ok (a, b, c, d) ∧ a ≤ c ∧ b ≤ d := by
  unfold canvasRectToPdfRect at h ⊢
  cases h0 : canvasToPdfPoint s pageIdx x0 y0 with
  | error e => rw [h0] at h; simp at h
  | ok p0 =>
    cases h1 : canvasToPdfPoint s pageIdx x1 y1 with
    | error e => rw [h0, h1] at h; simp at h
    | ok p1 =>
      rw [h0, h1] at h
      simp only [Except.ok.injEq, Prod.mk.injEq] at h
      obtain ⟨ha, hb, hc, hd⟩ := h
      subst ha
      subst hb
      subst hc
      subst hd
      refine ⟨?_, min_le_max, min_le_max⟩
      simp [min_comm, max_comm]

/-- A concrete manual-zoom view used to instantiate C5: one 600x800 page
displayed at raster size 300x400. -/
def sC5w : ViewerState :=
  { pages := [⟨600, 800⟩], currentPage := 0, hasAttrPagePhoto := true,
    pagePhoto := some (300, 400), fitToWindow := false,
    canvasW := 400, canvasH := 500, render := fun _ => (300, 400),
    redactionsByPage := fun _ => [], textsByPage := fun _ => [],
    redactOverlay := none }

/-- Witness for C5 at a concrete view and rectangle. -/
theorem C5_rect_corner_order_witness :
    canvasRectToPdfRect sC5w 0 110 120 10 20 = .ok (20, 560, 220, 760) ∧
      (20 : ℚ) ≤ 220 ∧ (560 : ℚ) ≤ 760 :=
  C5_rect_corner_order sC5w 0 10 20 110 120 20 560 220 760 (by with_unfolding_all rfl)

/-- C6: a completed draw gesture appends its rectangle to
`_redactions_by_page` only when both its width and its height are at
least the 5-pixel threshold: every rectangle present after
`_redact_finish` was either already stored or is non-degenerate.  (A
below-threshold rectangle is deleted from the canvas and the store is
left unchanged.) -/
theorem C6_redact_finish_threshold (s : ViewerState) (p : ℕ) (r : Rect)
    (hr : r ∈ (redactFinish s).redactionsByPage p) :
    r ∈ s.redactionsByPage p ∨ (5 ≤ |r.x1 - r.x0| ∧ 5 ≤ |r.y1 - r.y0|) := by
  unfold redactFinish at hr
  split at hr
  · exact Or.inl hr
  · split at hr
    · exact Or.inl hr
    · split at hr
      · exact Or.inl hr
      · rename_i ov hmode coords
        split at hr
        · exact Or.inl hr
        · rename_i hdeg
          push_neg at hdeg
          simp only at hr
          by_cases hp : p = s.currentPage
          · rw [if_pos hp] at hr
            rcases List.mem_append.mp hr with hin | hnew
            · exact Or.inl hin
            · rcases List.mem_singleton.mp hnew with rfl
              exact Or.inr ⟨hdeg.1, hdeg.2⟩
          · rw [if_neg hp] at hr; exact Or.inl hr

/-- A draw gesture about to be completed: the current canvas item is a
10x10 rectangle and the store is empty. -/
def ovC6w : RedactOverlay :=
  { startX := some 0, startY := some 0, currentItem := some ⟨0, 0, 10, 10⟩,
    mode := RedactMode.draw, offset := none }

def sC6w : ViewerState :=
  { sC5w with redactOverlay := some ovC6w }

/-- Witness for C6: finishing the 10x10 draw stores a rectangle that is
indeed non-degenerate. -/
theorem C6_redact_finish_threshold_witness :
    (⟨0, 0, 10, 10⟩ : Rect) ∈ sC6w.redactionsByPage 0 ∨
      (5 ≤ |(⟨0, 0, 10, 10⟩ : Rect).x1 - (⟨0, 0, 10, 10⟩ : Rect).x0| ∧
       5 ≤ |(⟨0, 0, 10, 10⟩ : Rect).y1 - (⟨0, 0, 10, 10⟩ : Rect).y0|) :=
  C6_redact_finish_threshold sC6w 0 ⟨0, 0, 10, 10⟩ (by
    norm_num [redactFinish, sC6w, sC5w, ovC6w, abs])

/-- C7: `save_text` appends an annotation to `_texts_by_page` only when
the entered text is non-empty after stripping whitespace: every
annotation present afterwards was either already stored or has non-blank
text.  Blank input leaves the store unchanged. -/
theorem C7_save_text_nonblank (s : ViewerState) (eventX eventY : ℚ) (text : String)
    (tkFamily : String) (fontSize : ℤ) (color : String) (p : ℕ) (td : TextData)
    (h : td ∈ (saveText s eventX eventY text tkFamily fontSize color).textsByPage p) :
    td ∈ s.textsByPage p ∨ pyStrip td.text.toList ≠ [] := by
  unfold saveText at h
  by_cases hblank : pyStrip text.toList ≠ []
  · rw [if_pos hblank] at h
    simp only at h
    by_cases hp : p = s.currentPage
    · rw [if_pos hp] at h
      rcases List.mem_append.mp h with hin | hnew
      · exact Or.inl hin
      · rcases List.mem_singleton.mp hnew with rfl
        exact Or.inr hblank
    · rw [if_neg hp] at h; exact Or.inl h
  · rw [if_neg hblank] at h; exact Or.inl h

/-- Witness for C7: the annotation stored for the text "Hello" has
non-blank text. -/
theorem C7_save_text_nonblank_witness :
    (⟨50, 50, "Hello", "Helvetica", 12, "#000000"⟩ : TextData) ∈ sC5w.textsByPage 0 ∨
      pyStrip (⟨50, 50, "Hello", "Helvetica", 12, "#000000"⟩ : TextData).text.toList ≠ [] :=
  C7_save_text_nonblank sC5w 50 50 "Hello" "Helvetica" 12 "#000000" 0
    ⟨50, 50, "Hello", "Helvetica", 12, "#000000"⟩ (by with_unfolding_all decide)

/-- Helper: the eviction loop is the identity once the cache is within
its capacity. -/
theorem evictThumbs_of_le {V : Type} (l : List (ℕ × V))
    (h : l.length ≤ maxThumbCache) : evictThumbs l = l := by
  rw [evictThumbs]
  rw [if_neg (by omega)]

/-- Helper: the eviction loop trims the cache to at most its capacity,
removing entries only from the least-recently-used end. -/
theorem evictThumbs_length {V : Type} :
    ∀ (n : ℕ) (l : List (ℕ × V)), l.length ≤ n →
      (evictThumbs l).length = min l.length maxThumbCache := by
  intro n
  induction n with
  | zero =>
    intro l hl
    have hnil : l = [] := List.length_eq_zero.mp (Nat.le_zero.mp hl)
    subst hnil
    rw [evictThumbs_of_le _ (by simp [maxThumbCache])]
    simp
  | succ n ih =>
    intro l hl
    rw [evictThumbs]
    split
    · rename_i hgt
      have htl : l.tail.length ≤ n := by
        rw [List.length_tail]
        omega
      rw [ih l.tail htl, List.length_tail]
      omega
    · rename_i hle
      omega

/-- Helper: a successful `lookup` means the pair is in the list. -/
theorem lookup_mem {V : Type} :
    ∀ (l : List (ℕ × V)) (k : ℕ) (v : V), l.lookup k = some v → (k, v) ∈ l := by
  intro l
  induction l with
  | nil => intro k v h; simp [List.lookup] at h
  | cons a t ih =>
    intro k v h
    obtain ⟨k', v'⟩ := a
    rw [List.lookup] at h
    by_cases hk : k = k'
    · subst hk
      simp at h
      subst h
      exact List.mem_cons_self _ _
    · have hbeq : (k == k') = false := beq_false_of_ne hk
      rw [hbeq] at h
      exact List.mem_cons_of_mem _ (ih k v h)

/-- C8: the thumbnail cache is a capacity-200 least-recently-used cache.
A hit promotes the entry to the most-recently-used end without growing
the cache; a miss appends the rendered entry and runs the eviction loop;
a miss on a full cache evicts exactly the least-recently-used (front)
entry; and a cache within capacity stays within capacity. -/
theorem C8_lru_cache {V : Type} (cache : List (ℕ × V)) (k : ℕ) (render : ℕ → V) :
    (∀ v, cache.lookup k = some v →
        ensureThumb cache k render =
          cache.eraseP (fun e => e.1 == k) ++ [(k, v)] ∧
        (ensureThumb cache k render).getLast? = some (k, v) ∧
        (ensureThumb cache k render).length = cache.length) ∧
    (cache.lookup k = none →
        ensureThumb cache k render = evictThumbs (cache ++ [(k, render k)])) ∧
    (cache.lookup k = none → cache.length = maxThumbCache →
        ensureThumb cache k render = cache.tail ++ [(k, render k)]) ∧
    (cache.length ≤ maxThumbCache →
        (ensureThumb cache k render).length ≤ maxThumbCache) := by
  refine ⟨?_, ?_, ?_, ?_⟩
  · intro v hv
    have heq : ensureThumb cache k render =
        cache.eraseP (fun e => e.1 == k) ++ [(k, v)] := by
      unfold ensureThumb
      rw [hv]
    have hlen : (cache.eraseP (fun e => e.1 == k)).length = cache.length - 1 :=
      List.length_eraseP_of_mem (lookup_mem cache k v hv) (by simp)
    have hpos : 1 ≤ cache.length :=
      List.length_pos.mpr (List.ne_nil_of_mem (lookup_mem cache k v hv))
    refine ⟨heq, ?_, ?_⟩
    · rw [heq]
      exact List.getLast?_concat _
    · rw [heq]
      simp [hlen]
      omega
  · intro hnone
    unfold ensureThumb
    rw [hnone]
  · intro hnone hfull
    unfold ensureThumb
    rw [hnone]
    have hne : cache ≠ [] := by
      intro hnil
      rw [hnil] at hfull
      simp [maxThumbCache] at hfull
    obtain ⟨a, t, rfl⟩ := List.exists_cons_of_ne_nil hne
    rw [evictThumbs]
    rw [if_pos (by simp_all [maxThumbCache])]
    simp only [List.cons_append, List.tail_cons]
    rw [evictThumbs_of_le]
    simp at hfull
    simp [hfull, maxThumbCache]
  · intro hle
    cases hv : cache.lookup k with
    | some v =>
      unfold ensureThumb
      rw [hv]
      have hlen : (cache.eraseP (fun e => e.1 == k)).length = cache.length - 1 :=
        List.length_eraseP_of_mem (lookup_mem cache k v hv) (by simp)
      have hpos : 1 ≤ cache.length :=
        List.length_pos.mpr (List.ne_nil_of_mem (lookup_mem cache k v hv))
      rw [List.length_append, hlen]
      simp only [List.length_cons, List.length_nil]
      omega
    | none =>
      unfold ensureThumb
      rw [hv]
      rw [evictThumbs_length (cache.length + 1) _ (by simp)]
      exact min_le_right _ _

/-- A full thumbnail cache: pages 0..199, least recently used first. -/
def cache200 : List (ℕ × ℕ) :=
  (List.range 200).map (fun i => (i, i))

set_option maxRecDepth 8000 in
/-- Witness for C8: a hit on page 1 promotes it to the tail without
growing the cache, and a miss on a full cache drops page 0, the
least-recently-used entry. -/
theorem C8_lru_cache_witness :
    (ensureThumb [(0, 5), (1, 7)] 1 (fun i => i) =
        ([(0, 5), (1, 7)] : List (ℕ × ℕ)).eraseP (fun e => e.1 == 1) ++ [(1, 7)] ∧
      (ensureThumb [(0, 5), (1, 7)] 1 (fun i => i)).getLast? = some (1, 7) ∧
      (ensureThumb [(0, 5), (1, 7)] 1 (fun i => i)).length =
        ([(0, 5), (1, 7)] : List (ℕ × ℕ)).length) ∧
    ensureThumb cache200 200 (fun i => i) = cache200.tail ++ [(200, 200)] ∧
    (ensureThumb cache200 200 (fun i => i)).length ≤ maxThumbCache :=
  ⟨(C8_lru_cache [(0, 5), (1, 7)] 1 (fun i => i)).1 7 (by decide),
   (C8_lru_cache cache200 200 (fun i => i)).2.2.1 (by decide) (by decide),
   (C8_lru_cache cache200 200 (fun i => i)).2.2.2 (by decide)⟩

/-- A freshly constructed viewer on a 612x792 page, before `__init__`
has set the photo fields. -/
def sC2base : ViewerState :=
  { pages := [⟨612, 792⟩], currentPage := 0, hasAttrPagePhoto := false,
    pagePhoto := none, fitToWindow := true, canvasW := 540, canvasH := 700,
    render := fun _ => (500, 650), redactionsByPage := fun _ => [],
    textsByPage := fun _ => [], redactOverlay := none }

/-- The state right after `__init__` and before the first raster: the
`_page_photo` attribute exists and holds `None`. -/
def sC2 : ViewerState := initPhotoFields sC2base

/-- C2: on a page with no raster yet, `_canvas_to_pdf_point` does not
return the documented identity-scale fallback; because `__init__` sets
`_page_photo = None`, the `hasattr` guard is always true and the call
dereferences `None`, raising `AttributeError`.  The fallback branch is
reachable only in the counterfactual state where the attribute is
absent, in which case it would return `(10, 792 - 20)`. -/
theorem C2_fallback_unreachable :
    canvasToPdfPoint sC2 0 10 20 =
      .error "AttributeError: NoneType object has no attribute width" ∧
    canvasToPdfPoint { sC2 with hasAttrPagePhoto := false } 0 10 20 = .ok (10, 772) := by
  constructor
  · with_unfolding_all rfl
  · with_unfolding_all rfl

/-- The stored rectangle of the C9 scenario, as drawn. -/
def rOldC9 : Rect := ⟨10, 10, 100, 100⟩

/-- The canvas rectangle after the move drag of the C9 scenario. -/
def rNewC9 : Rect := ⟨30, 40, 120, 130⟩

/-- A redaction selected for moving: `_redact_start` hit the stored
rectangle at its corner, so the grab offset is `(0, 0)`. -/
def ovC9 : RedactOverlay :=
  { startX := none, startY := none, currentItem := some rOldC9,
    mode := RedactMode.move, offset := some (0, 0) }

/-- Viewer state of the C9 scenario: one stored redaction on page 0 and
the move gesture in progress. -/
def sC9 : ViewerState :=
  { sC5w with redactionsByPage := fun p => if p = 0 then [rOldC9] else [],
              redactOverlay := some ovC9 }

/-- C9: a move drag updates the canvas item to `(30, 40, 120, 130)`, but
neither the drag, nor the finishing release (`_redact_finish` is a no-op
outside draw mode), nor a keyboard nudge writes
`_redactions_by_page`: the store still holds the stale rectangle
`(10, 10, 100, 100)`. -/
theorem C9_move_nudge_not_persisted :
    ((redactDrag sC9 30 40).map fun s2 =>
        (s2.redactOverlay.map fun ov => ov.currentItem,
         (redactFinish s2).redactionsByPage 0,
         (adjustRedact s2 AdjustDim.w 5).redactionsByPage 0)) =
      .ok (some (some rNewC9), [rOldC9], [rOldC9]) ∧
    rNewC9 ≠ rOldC9 := by
  constructor
  · with_unfolding_all rfl
  · with_unfolding_all decide

/-- The two-page document of the C1 scenario: page 0 is 600x800, page 1
is 600x400 points. -/
def sC1pages : List PageGeom := [⟨600, 800⟩, ⟨600, 400⟩]

/-- Export started while page 0 is displayed (manual zoom, page photo
300x400); one redaction rectangle is stored for page 1. -/
def sC1a : ViewerState :=
  { pages := sC1pages, currentPage := 0, hasAttrPagePhoto := true,
    pagePhoto := some (300, 400), fitToWindow := false,
    canvasW := 400, canvasH := 500,
    render := fun p => if p = 0 then (300, 400) else (300, 200),
    redactionsByPage := fun p => if p = 1 then [⟨100, 100, 200, 150⟩] else [],
    textsByPage := fun _ => [], redactOverlay := none }

/-- The same viewer, but export starts while page 1 is displayed (page
photo 300x200). -/
def sC1b : ViewerState :=
  { sC1a with currentPage := 1, pagePhoto := some (300, 200) }

/-- C1: the redaction path of `_export_with_overlays` maps the page-1
rectangle with the display geometry of whichever page happens to be
shown when export starts - the transient re-render of lines 904-911
exists only on the text path - so the same stored overlay is burnt at
two different page-space positions depending on the page displayed at
export time, contradicting the claimed view-independence. -/
theorem C1_export_uses_current_view_geometry :
    (exportWithOverlays sC1a true).2 = .ok [ExportOp.drawRect 1 ⟨200, 250, 400, 300⟩] ∧
    (exportWithOverlays sC1b true).2 = .ok [ExportOp.drawRect 1 ⟨200, 100, 400, 200⟩] ∧
    (exportWithOverlays sC1a true).2 ≠ (exportWithOverlays sC1b true).2 := by
  refine ⟨?_, ?_, ?_⟩
  · with_unfolding_all rfl
  · with_unfolding_all rfl
  · with_unfolding_all decide

/-- Helper: `display_page` never writes the redaction store. -/
theorem displayPage_redactionsByPage (s : ViewerState) :
    (displayPage s).redactionsByPage = s.redactionsByPage := by
  unfold displayPage
  split <;> rfl

/-- Helper: `display_page` never writes the text store. -/
theorem displayPage_textsByPage (s : ViewerState) :
    (displayPage s).textsByPage = s.textsByPage := by
  unfold displayPage
  split <;> rfl

/-- Helper: the transient page switch of the export text loop keeps both
overlay stores. -/
theorem ite_displayPage_stores (st : ViewerState) (c : Prop) [Decidable c] (p : ℕ) :
    ((if c then displayPage { st with currentPage := p } else st).redactionsByPage
        = st.redactionsByPage) ∧
    ((if c then displayPage { st with currentPage := p } else st).textsByPage
        = st.textsByPage) := by
  split
  · exact ⟨displayPage_redactionsByPage _, displayPage_textsByPage _⟩
  · exact ⟨rfl, rfl⟩

/-- Helper: the export text loop threads the viewer state without ever
writing either overlay store. -/
theorem exportTexts_stores (pageIdx : ℕ) (tds : List TextData) :
    ∀ (st : ViewerState) (ops : List ExportOp),
      (exportTexts pageIdx tds st ops).1.redactionsByPage = st.redactionsByPage ∧
      (exportTexts pageIdx tds st ops).1.textsByPage = st.textsByPage := by
  induction tds with
  | nil => intro st ops; exact ⟨rfl, rfl⟩
  | cons td rest ih =>
    intro st ops
    obtain ⟨hr1, ht1⟩ :=
      ite_displayPage_stores st (pageIdx ≠ st.currentPage) pageIdx
    simp only [exportTexts]
    split
    · exact ⟨hr1, ht1⟩
    · split
      · exact ⟨hr1, ht1⟩
      · obtain ⟨hr2, ht2⟩ :=
          ite_displayPage_stores
            (if pageIdx ≠ st.currentPage then displayPage { st with currentPage := pageIdx }
             else st)
            (st.currentPage ≠ pageIdx) st.currentPage
        exact ⟨(ih _ _).1.trans (hr2.trans hr1), (ih _ _).2.trans (ht2.trans ht1)⟩

/-- Helper: the export page loop never writes either overlay store. -/
theorem exportPages_stores (idxs : List ℕ) :
    ∀ (st : ViewerState) (ops : List ExportOp),
      (exportPages idxs st ops).1.redactionsByPage = st.redactionsByPage ∧
      (exportPages idxs st ops).1.textsByPage = st.textsByPage := by
  induction idxs with
  | nil => intro st ops; exact ⟨rfl, rfl⟩
  | cons pageIdx rest ih =>
    intro st ops
    simp only [exportPages]
    split
    · exact ⟨rfl, rfl⟩
    · rename_i ops1 heqm
      split
      · rename_i st1 e heq
        have h := exportTexts_stores pageIdx (st.textsByPage pageIdx) st ops1
        rw [heq] at h
        exact h
      · rename_i st1 ops2 heq
        have h := exportTexts_stores pageIdx (st.textsByPage pageIdx) st ops1
        rw [heq] at h
        exact ⟨(ih _ _).1.trans h.1, (ih _ _).2.trans h.2⟩

/-- C10: `_export_with_overlays` leaves the in-memory overlay state
untouched whether it returns normally or raises: afterwards
`_redactions_by_page` and `_texts_by_page` are exactly what they were
before the call, so a failed save can be retried with the same
overlays. -/
theorem C10_export_preserves_overlay_state (s : ViewerState) (saveOk : Bool) :
    (exportWithOverlays s saveOk).1.redactionsByPage = s.redactionsByPage ∧
    (exportWithOverlays s saveOk).1.textsByPage = s.textsByPage := by
  unfold exportWithOverlays
  split
  · rename_i st e heq
    have h := exportPages_stores (List.range s.pages.length) s []
    rw [heq] at h
    exact h
  · rename_i st ops heq
    have h := exportPages_stores (List.range s.pages.length) s []
    rw [heq] at h
    exact h

/-- A manual-zoom view for the C3 counterexample: one 600x800 page
displayed at raster size 300x400. -/
def sC3zoom : ViewerState :=
  { pages := [⟨600, 800⟩], currentPage := 0, hasAttrPagePhoto := true,
    pagePhoto := some (300, 400), fitToWindow := false,
    canvasW := 400, canvasH := 500, render := fun _ => (300, 400),
    redactionsByPage := fun _ => [], textsByPage := fun _ => [],
    redactOverlay := none }

/-- C3 counterexample: in manual-zoom mode nothing is clamped.  The
pixel `(400, -50)` lies outside the 300x400 displayed image, yet
`_canvas_to_pdf_point` maps it to `(800, 900)`, which violates both page
bounds `[0, 600] x [0, 800]` - refuting the claim that the result always
lies within the page in both view modes. -/
theorem C3_zoom_mode_no_clamp :
    canvasToPdfPoint sC3zoom 0 400 (-50) = .ok (800, 900) ∧
    ¬((800 : ℚ) ≤ 600) ∧ ¬((900 : ℚ) ≤ 800) := by
  refine ⟨?_, ?_, ?_⟩
  · with_unfolding_all rfl
  · with_unfolding_all decide
  · with_unfolding_all decide

/-- Helper: scaling a coordinate that lies within `[0, d]` by `W / d`
lands in `[0, W]`. -/
theorem scale_bounds (r d W : ℚ) (hd : 0 < d) (hW : 0 ≤ W) (h0 : 0 ≤ r) (h1 : r ≤ d) :
    0 ≤ r * (W / d) ∧ r * (W / d) ≤ W := by
  constructor
  · exact mul_nonneg h0 (div_nonneg hW hd.le)
  · calc r * (W / d) ≤ d * (W / d) :=
        mul_le_mul_of_nonneg_right h1 (div_nonneg hW hd.le)
    _ = W := by field_simp

/-- C3 as amended: in fit-to-window mode (the mode the source actually
clamps in), `_canvas_to_pdf_point` clamps the image-local coordinate into
`[0, display_w] x [0, display_h]` and returns, without raising, a point
within `[0, page_width] x [0, page_height]`.  In manual-zoom mode no
clamping is performed and an out-of-image pixel may map outside the
page. -/
theorem C3_fit_mode_clamped_bounds (s : ViewerState) (pageIdx : ℕ) (pg : PageGeom)
    (dw dh x y : ℚ)
    (hpage : s.pages.get? pageIdx = some pg)
    (hattr : s.hasAttrPagePhoto = true)
    (hphoto : s.pagePhoto = some (dw, dh))
    (hfit : s.fitToWindow = true)
    (hdw : 0 < dw) (hdh : 0 < dh)
    (hpw : 0 ≤ pg.pdfWidth) (hph : 0 ≤ pg.pdfHeight) :
    ∃ relX relY, 0 ≤ relX ∧ relX ≤ dw ∧ 0 ≤ relY ∧ relY ≤ dh ∧
      canvasToPdfPoint s pageIdx x y =
        .ok (relX * (pg.pdfWidth / dw), pg.pdfHeight - relY * (pg.pdfHeight / dh)) ∧
      0 ≤ relX * (pg.pdfWidth / dw) ∧ relX * (pg.pdfWidth / dw) ≤ pg.pdfWidth ∧
      0 ≤ pg.pdfHeight - relY * (pg.pdfHeight / dh) ∧
      pg.pdfHeight - relY * (pg.pdfHeight / dh) ≤ pg.pdfHeight := by
  unfold canvasToPdfPoint
  rw [hpage, hattr, hphoto]
  simp only [Bool.true_eq_false, if_false, hfit, if_true]
  by_cases hout : x - (s.canvasW - dw) / 2 < 0 ∨ x - (s.canvasW - dw) / 2 > dw ∨
      y - (s.canvasH - dh) / 2 < 0 ∨ y - (s.canvasH - dh) / 2 > dh
  · rw [if_pos hout]
    refine ⟨max 0 (min dw (x - (s.canvasW - dw) / 2)),
            max 0 (min dh (y - (s.canvasH - dh) / 2)), ?_, ?_, ?_, ?_, rfl, ?_⟩
    · exact le_max_left 0 _
    · exact max_le hdw.le (min_le_left _ _)
    · exact le_max_left 0 _
    · exact max_le hdh.le (min_le_left _ _)
    · obtain ⟨hxa, hxb⟩ := scale_bounds _ dw pg.pdfWidth hdw hpw
        (le_max_left 0 _) (max_le hdw.le (min_le_left _ _))
      obtain ⟨hya, hyb⟩ := scale_bounds _ dh pg.pdfHeight hdh hph
        (le_max_left 0 _) (max_le hdh.le (min_le_left _ _))
      exact ⟨hxa, hxb, sub_nonneg.mpr hyb, sub_le_self _ hya⟩
  · rw [if_neg hout]
    push_neg at hout
    obtain ⟨hx0, hx1, hy0, hy1⟩ := hout
    refine ⟨x - (s.canvasW - dw) / 2, y - (s.canvasH - dh) / 2,
            hx0, hx1, hy0, hy1, rfl, ?_⟩
    obtain ⟨hxa, hxb⟩ := scale_bounds _ dw pg.pdfWidth hdw hpw hx0 hx1
    obtain ⟨hya, hyb⟩ := scale_bounds _ dh pg.pdfHeight hdh hph hy0 hy1
    exact ⟨hxa, hxb, sub_nonneg.mpr hyb, sub_le_self _ hya⟩

/-- A fit-to-window view for the C3 witness: the 612x792 page shown as a
500x650 image centered in a 540x700 canvas. -/
def sC3fit : ViewerState :=
  { pages := [⟨612, 792⟩], currentPage := 0, hasAttrPagePhoto := true,
    pagePhoto := some (500, 650), fitToWindow := true,
    canvasW := 540, canvasH := 700, render := fun _ => (500, 650),
    redactionsByPage := fun _ => [], textsByPage := fun _ => [],
    redactOverlay := none }

/-- Witness for the amended C3 at the out-of-image pixel `(600, -10)`. -/
theorem C3_fit_mode_clamped_bounds_witness :
    ∃ relX relY, 0 ≤ relX ∧ relX ≤ 500 ∧ 0 ≤ relY ∧ relY ≤ 650 ∧
      canvasToPdfPoint sC3fit 0 600 (-10) =
        .ok (relX * ((612 : ℚ) / 500), (792 : ℚ) - relY * ((792 : ℚ) / 650)) ∧
      0 ≤ relX * ((612 : ℚ) / 500) ∧ relX * ((612 : ℚ) / 500) ≤ 612 ∧
      0 ≤ (792 : ℚ) - relY * ((792 : ℚ) / 650) ∧
      (792 : ℚ) - relY * ((792 : ℚ) / 650) ≤ 792 :=
  C3_fit_mode_clamped_bounds sC3fit 0 ⟨612, 792⟩ 500 650 600 (-10) rfl rfl rfl rfl
    (by norm_num) (by norm_num) (by norm_num) (by norm_num)

/-- The mathematical inverse of the fit-to-window pixel-to-page mapping,
witnessing the invertibility asserted by the spec: scale the page point
back to image-local pixels and add the centering offset. -/
def pdfToCanvasPointFit (cw ch dw dh pw ph px py : ℚ) : ℚ × ℚ :=
  (px * dw / pw + (cw - dw) / 2, (ph - py) * dh / ph + (ch - dh) / 2)

/-- C4: in fit-to-window mode, for a pixel inside the displayed image,
`_canvas_to_pdf_point` returns exactly the offset-subtract, per-axis
scale, Y-flip formula of the spec, and the mapping round-trips: applying
the inverse to the result recovers the original pixel exactly (the model
computes in exact rational arithmetic, so the floating-point tolerance
of the claim is met with zero error). -/
theorem C4_fit_mode_formula_roundtrip (s : ViewerState) (pageIdx : ℕ) (pg : PageGeom)
    (dw dh x y : ℚ)
    (hpage : s.pages.get? pageIdx = some pg)
    (hattr : s.hasAttrPagePhoto = true)
    (hphoto : s.pagePhoto = some (dw, dh))
    (hfit : s.fitToWindow = true)
    (hdw : 0 < dw) (hdh : 0 < dh)
    (hpw : 0 < pg.pdfWidth) (hph : 0 < pg.pdfHeight)
    (hx0 : (s.canvasW - dw) / 2 ≤ x) (hx1 : x ≤ (s.canvasW - dw) / 2 + dw)
    (hy0 : (s.canvasH - dh) / 2 ≤ y) (hy1 : y ≤ (s.canvasH - dh) / 2 + dh) :
    canvasToPdfPoint s pageIdx x y =
      .ok ((x - (s.canvasW - dw) / 2) * pg.pdfWidth / dw,
           pg.pdfHeight - (y - (s.canvasH - dh) / 2) * pg.pdfHeight / dh) ∧
    pdfToCanvasPointFit s.canvasW s.canvasH dw dh pg.pdfWidth pg.pdfHeight
        ((x - (s.canvasW - dw) / 2) * pg.pdfWidth / dw)
        (pg.pdfHeight - (y - (s.canvasH - dh) / 2) * pg.pdfHeight / dh) = (x, y) := by
  unfold canvasToPdfPoint
  rw [hpage, hattr, hphoto]
  simp only [Bool.true_eq_false, if_false, hfit, if_true]
  have hcond : ¬(x - (s.canvasW - dw) / 2 < 0 ∨ x - (s.canvasW - dw) / 2 > dw ∨
      y - (s.canvasH - dh) / 2 < 0 ∨ y - (s.canvasH - dh) / 2 > dh) := by
    push_neg
    refine ⟨by linarith, by linarith, by linarith, by linarith⟩
  rw [if_neg hcond]
  have hdw' : dw ≠ 0 := hdw.ne'
  have hpw' : pg.pdfWidth ≠ 0 := hpw.ne'
  have hdh' : dh ≠ 0 := hdh.ne'
  have hph' : pg.pdfHeight ≠ 0 := hph.ne'
  constructor
  · have e1 : (x - (s.canvasW - dw) / 2) * (pg.pdfWidth / dw) =
        (x - (s.canvasW - dw) / 2) * pg.pdfWidth / dw := by ring
    have e2 : (y - (s.canvasH - dh) / 2) * (pg.pdfHeight / dh) =
        (y - (s.canvasH - dh) / 2) * pg.pdfHeight / dh := by ring
    rw [e1, e2]
  · unfold pdfToCanvasPointFit
    simp only [Prod.mk.injEq]
    constructor
    · field_simp
      ring
    · field_simp
      ring

/-- The fit-to-window view of the spec scenario, used for the C4
witness: the 612x792 page shown as a 500x650 image centered in a 540x700
canvas. -/
def sC4w : ViewerState :=
  { pages := [⟨612, 792⟩], currentPage := 0, hasAttrPagePhoto := true,
    pagePhoto := some (500, 650), fitToWindow := true,
    canvasW := 540, canvasH := 700, render := fun _ => (500, 650),
    redactionsByPage := fun _ => [], textsByPage := fun _ => [],
    redactOverlay := none }

/-- Witness for C4 at the in-image pixel `(100, 100)`. -/
theorem C4_fit_mode_formula_roundtrip_witness :
    canvasToPdfPoint sC4w 0 100 100 =
      .ok ((100 - ((540 : ℚ) - 500) / 2) * 612 / 500,
           (792 : ℚ) - (100 - ((700 : ℚ) - 650) / 2) * 792 / 650) ∧
    pdfToCanvasPointFit 540 700 500 650 612 792
        ((100 - ((540 : ℚ) - 500) / 2) * 612 / 500)
        ((792 : ℚ) - (100 - ((700 : ℚ) - 650) / 2) * 792 / 650) = (100, 100) :=
  C4_fit_mode_formula_roundtrip sC4w 0 ⟨612, 792⟩ 500 650 100 100 rfl rfl rfl rfl
    (by norm_num) (by norm_num) (by norm_num) (by norm_num)
    (by norm_num [sC4w]) (by norm_num [sC4w]) (by norm_num [sC4w]) (by norm_num [sC4w])
